import Mathlib

/-!
Verification of memorize.py (brmscheiner/memorize.py), a decorator that
memoizes a pure function across program executions, persisting the cache
to a `.cache` file and invalidating it wholesale when the source file's
modification time advances past the stored timestamp.

The repository has two implementations of the same design:
`src/memorize/memorize.py` (class `Memorize`, the packaged one) and
`src/memorize.py` (class `memoized`, the legacy one). Both are embedded
below. File times are modelled as integers (only their order matters),
argument tuples as an abstract type with decidable equality, the Python
dict as an association list, Python exceptions as an error type carried
in `Except`, and disk state explicitly.
-/

namespace Memorize

/-- Python exceptions, as far as the cache logic distinguishes them:
`TypeError` (raised by hashing an unhashable value, and catchable by the
`except TypeError` clause in `Memorize.__call__`) versus any other
exception. -/
inductive PyErr where
  | typeError
  | other (code : Nat)
deriving DecidableEq, Repr

/-- Persisted cache file contents: `save_cache` pickles a dict with the
source file's modification `timestamp` and the `cache` mapping
(`out['timestamp'] = self.get_last_update(); out['cache'] = self.cache`). -/
structure CacheData (α β : Type) where
  timestamp : Int
  cache : List (α × β)
deriving DecidableEq, Repr

/-- World visible to one wrapper: the cache file on disk (`none` when
`cache_exists()` is false), the current modification time of the source
file (`os.path.getmtime(self.parent_filepath)`), and the wrapper's
in-memory cache (`self.cache`, `none` before the lazy load). -/
structure World (α β : Type) where
  disk : Option (CacheData α β)
  mtime : Int
  mem : Option (List (α × β))
deriving DecidableEq, Repr

/-- Python dict lookup `d[k]` / `k in d` on the association-list model. -/
def dictLookup {α β : Type} [DecidableEq α] : List (α × β) → α → Option β
  | [], _ => none
  | (k, v) :: rest, a => if k = a then some v else dictLookup rest a

/-- Python dict assignment `d[k] = v`: replace the binding if the key is
present, otherwise append it. -/
def dictInsert {α β : Type} [DecidableEq α] : List (α × β) → α → β → List (α × β)
  | [], a, b => [(a, b)]
  | (k, v) :: rest, a, b =>
    if k = a then (a, b) :: rest else (k, v) :: dictInsert rest a b

/-- Embeds `Memorize.is_safe_cache`: the cache is safe unless the source
file's current modification time exceeds the stored timestamp
(`if self.get_last_update() > self.timestamp: return False; return True`).
The legacy `memoized.isSafeCache` is the identical test. -/
def is_safe_cache (mtime timestamp : Int) : Bool :=
  if mtime > timestamp then false else true

/-- Embeds `Memorize.check_cache`: when `self.cache is None`, read the
cache file if it exists (one disk read), discard its mapping when it is
not safe; otherwise keep the already-loaded mapping. Returns the loaded
mapping together with the number of cache-file reads performed. -/
def check_cache {α β : Type} (w : World α β) : List (α × β) × Nat :=
  match w.mem with
  | some c => (c, 0)
  | none =>
    match w.disk with
    | some d => if is_safe_cache w.mtime d.timestamp then (d.cache, 1) else ([], 1)
    | none => ([], 0)

/-- Outcome of one wrapper call: the value returned or exception raised,
the world afterwards, how many times the underlying function was invoked,
how many cache-file reads happened, and whether the cache file was
written. -/
structure CallResult (α β : Type) where
  result : Except PyErr β
  world : World α β
  invocations : Nat
  reads : Nat
  wrote : Bool

/-- Embeds `Memorize.__call__`. `f` is the wrapped function (possibly
raising), `hashable a` says whether the argument tuple `a` can be hashed.
Control flow of the source: `check_cache()`, then inside
`try`: `args in self.cache` (raises `TypeError` when unhashable), cache
hit returns the stored value, miss computes `value = self.func(*args)`,
stores it, `save_cache()`, returns it; `except TypeError` invokes
`self.func(*args)` directly — this clause also catches a `TypeError`
raised by `self.func` itself on a miss, in which case the function runs a
second time. -/
def call {α β : Type} [DecidableEq α] (f : α → Except PyErr β) (hashable : α → Bool)
    (w : World α β) (args : α) : CallResult α β :=
  let load := check_cache w
  let c := load.1
  let w1 : World α β := ⟨w.disk, w.mtime, some c⟩
  if hashable args then
    match dictLookup c args with
    | some v => ⟨Except.ok v, w1, 0, load.2, false⟩
    | none =>
      match f args with
      | Except.ok v =>
        let c2 := dictInsert c args v
        ⟨Except.ok v, ⟨some ⟨w.mtime, c2⟩, w.mtime, some c2⟩, 1, load.2, true⟩
      | Except.error PyErr.typeError => ⟨f args, w1, 2, load.2, false⟩
      | Except.error e => ⟨Except.error e, w1, 1, load.2, false⟩
  else
    ⟨f args, w1, 1, load.2, false⟩

/-- Embeds a fresh `Memorize.__init__` outcome for the cache field:
`self.cache = None` — no cache-file read happens at construction. -/
def initMem {α β : Type} : Option (List (α × β)) := none

/-- Runs a sequence of calls through `Memorize.call`, accumulating the
total number of cache-file reads. -/
def callTrace {α β : Type} [DecidableEq α] (f : α → Except PyErr β) (hashable : α → Bool) :
    World α β → List α → World α β × Nat
  | w, [] => (w, 0)
  | w, a :: rest =>
    let r := call f hashable w a
    let t := callTrace f hashable r.world rest
    (t.1, r.reads + t.2)

end Memorize

namespace Memoized

open Memorize (PyErr CacheData dictLookup dictInsert is_safe_cache)

/-- Value of `isinstance(args, collections.Hashable)` in
`memoized.__call__` of the legacy `src/memorize.py`: `args` is always a
tuple, and the tuple class implements `__hash__`, so the isinstance
check — which inspects the class, not the elements — is `True` for every
argument tuple, including tuples holding unhashable elements. -/
def tupleIsInstanceHashable : Bool := true

/-- Embeds `memoized.__init__`'s cache setup, which runs eagerly at
construction: if the cache file exists it is read (one disk read) and
discarded when unsafe, otherwise the cache starts empty. Returns the
initial in-memory mapping and the number of cache-file reads performed
during construction. -/
def init {α β : Type} (disk : Option (CacheData α β)) (mtime : Int) :
    List (α × β) × Nat :=
  match disk with
  | some d => if is_safe_cache mtime d.timestamp then (d.cache, 1) else ([], 1)
  | none => ([], 0)

/-- Outcome of one `memoized.__call__`: result, in-memory cache
afterwards, number of invocations of the wrapped function, and whether
the cache file was written. -/
structure MCallResult (α β : Type) where
  result : Except PyErr β
  cache : List (α × β)
  invocations : Nat
  wrote : Bool

/-- Embeds `memoized.__call__` of the legacy `src/memorize.py`:
`if not isinstance(args, collections.Hashable): return self.func(*args)`,
then `if args in self.cache` (which raises `TypeError` to the caller when
the tuple holds an unhashable element — there is no try/except here),
hit returns the stored value, miss computes, stores, saves and returns. -/
def call {α β : Type} [DecidableEq α] (f : α → Except PyErr β) (hashable : α → Bool)
    (cache : List (α × β)) (args : α) : MCallResult α β :=
  if tupleIsInstanceHashable = false then
    ⟨f args, cache, 1, false⟩
  else if hashable args then
    match dictLookup cache args with
    | some v => ⟨Except.ok v, cache, 0, false⟩
    | none =>
      match f args with
      | Except.ok v => ⟨Except.ok v, dictInsert cache args v, 1, true⟩
      | Except.error e => ⟨Except.error e, cache, 1, false⟩
  else
    ⟨Except.error PyErr.typeError, cache, 0, false⟩

end Memoized

namespace Slug

/-- Code points kept by `.encode('ascii', 'ignore')` (then decoded back):
exactly those below 128. -/
def isAsciiChar (c : Char) : Bool := decide (c.toNat < 128)

/-- Characters matched by the regex class `\w` on an ASCII-only Python 3
string: letters, digits and underscore. -/
def isWordChar (c : Char) : Bool :=
  decide (97 ≤ c.toNat ∧ c.toNat ≤ 122) || decide (65 ≤ c.toNat ∧ c.toNat ≤ 90) ||
    decide (48 ≤ c.toNat ∧ c.toNat ≤ 57) || decide (c = '_')

/-- ASCII characters treated as whitespace by Python's regex `\s` and by
`str.strip()`: space, `\t\n\v\f\r` (9–13) and the separators 28–31. -/
def isPySpace (c : Char) : Bool :=
  decide (c.toNat = 32) || decide (9 ≤ c.toNat ∧ c.toNat ≤ 13) ||
    decide (28 ≤ c.toNat ∧ c.toNat ≤ 31)

/-- Characters matched by the regex class `[-\s]`. -/
def isDashOrSpace (c : Char) : Bool := decide (c = '-') || isPySpace c

/-- Embeds Python's `str.strip()`: drop leading and trailing whitespace. -/
def pyStrip (l : List Char) : List Char :=
  ((l.dropWhile isPySpace).reverse.dropWhile isPySpace).reverse

/-- Worker for `re.sub(r'[-\s]+', '-', value)`: `inRun` records whether
the scan is inside a maximal `[-\s]` run whose single replacement hyphen
has already been emitted. -/
def collapseAux : Bool → List Char → List Char
  | _, [] => []
  | inRun, c :: rest =>
    if isDashOrSpace c then
      if inRun then collapseAux true rest else '-' :: collapseAux true rest
    else c :: collapseAux false rest

/-- Embeds `re.sub(r'[-\s]+', '-', value)`: each maximal run of hyphens
and whitespace becomes a single hyphen. -/
def collapseRuns (l : List Char) : List Char := collapseAux false l

/-- Embeds `_slugify` of `src/memorize/memorize.py` (identically,
`slugify` of the legacy `src/memorize.py` on Python 3). The
`unicodedata.normalize('NFKD', ·)` step is an arbitrary parameter `nfkd`
(its output is immediately stripped to ASCII by `.encode('ascii',
'ignore')`, so no property below depends on it); the remaining steps are
the source's: remove characters outside `[\w\s-]`, `strip()`, `lower()`
(ASCII lower-casing, as all non-ASCII is gone), collapse `[-\s]+` runs
into single hyphens. -/
def pySlugify (nfkd : List Char → List Char) (s : List Char) : List Char :=
  let v1 := (nfkd s).filter isAsciiChar
  let v2 := v1.filter (fun c => isWordChar c || isPySpace c || decide (c = '-'))
  let v3 := (pyStrip v2).map Char.toLower
  collapseRuns v3

/-- Characters the specification allows in a slug: lowercase letters,
digits, underscore, hyphen. -/
def isSlugChar (c : Char) : Bool :=
  decide (97 ≤ c.toNat ∧ c.toNat ≤ 122) || decide (48 ≤ c.toNat ∧ c.toNat ≤ 57) ||
    decide (c = '_') || decide (c = '-')

/-- Checks that no two adjacent characters are both hyphens ("single
hyphens" in the specification). -/
def noAdjacentHyphens : List Char → Bool
  | [] => true
  | [_] => true
  | a :: b :: rest =>
    !(decide (a = '-') && decide (b = '-')) && noAdjacentHyphens (b :: rest)

/-- Checks whether a string starts with a hyphen. -/
def startsWithDash : List Char → Bool
  | [] => false
  | a :: _ => decide (a = '-')

end Slug

namespace PyPath

/-- Embeds `str.replace('.py', '')` as used by `get_cache_filename`: a
left-to-right removal of every non-overlapping occurrence of `.py`, not
just a final extension. -/
def removeDotPy : List Char → List Char
  | '.' :: 'p' :: 'y' :: rest => removeDotPy rest
  | c :: rest => c :: removeDotPy rest
  | [] => []

/-- Embeds `os.path.basename` for POSIX paths: the part after the last
slash. -/
def basename (p : List Char) : List Char :=
  (p.reverse.takeWhile (fun c => ¬(c = '/'))).reverse

/-- Embeds `filenameFromPath` of the legacy `src/memorize.py`:
`filepath.split('/')[-1]`, the part after the last slash. -/
def filenameFromPath (p : List Char) : List Char :=
  (p.reverse.takeWhile (fun c => ¬(c = '/'))).reverse

/-- Embeds `os.path.dirname` for POSIX paths: everything before the last
slash, with trailing slashes stripped unless the result is all slashes. -/
def dirname (p : List Char) : List Char :=
  let head := (p.reverse.dropWhile (fun c => ¬(c = '/'))).reverse
  if head = [] then []
  else if head.all (fun c => c = '/') then head
  else (head.reverse.dropWhile (fun c => c = '/')).reverse

/-- Embeds `os.path.join folder name` for POSIX paths (two-argument
form): an absolute second component wins; otherwise concatenate with a
separating slash when needed. -/
def pathJoin (a b : List Char) : List Char :=
  match b with
  | '/' :: _ => b
  | _ =>
    if a = [] then b
    else if a.getLast? = some '/' then a ++ b
    else a ++ '/' :: b

/-- Embeds `os.path.abspath` for POSIX paths, up to `normpath`'s
collapsing of `.`/`..` segments (never exercised by the claims): an
already absolute path is returned as is, a relative one is joined onto
the current working directory. -/
def abspath (cwd p : List Char) : List Char :=
  match p with
  | '/' :: _ => p
  | _ => pathJoin cwd p

/-- Embeds `os.path.curdir`, the literal path `.`. -/
def curdir : List Char := ['.']

end PyPath

namespace Ident

open Slug PyPath

/-- Introspection facts available when a wrapper is constructed:
`definingFile` is `inspect.getfile(func)`, the (possibly relative) path
of the source file that defines the wrapped function; `mainScriptFile`
is `inspect.stack()[-1].filename`, the path of the outermost stack
frame's file (the top-level script being run); `funcName` is
`func.__name__`; `cwd` is the process working directory. -/
structure FuncEnv where
  definingFile : List Char
  mainScriptFile : List Char
  funcName : List Char
  cwd : List Char

/-- Identity a wrapper records at construction: `self.parent_filepath`,
`self.parent_filename` and `self.__name__`. -/
structure Identity where
  parent_filepath : List Char
  parent_filename : List Char
  name : List Char

/-- Embeds `Memorize.__init__`: `function_file = inspect.getfile(func)`,
`self.parent_filepath = os.path.abspath(function_file)`,
`self.parent_filename = os.path.basename(function_file)`,
`self.__name__ = self.func.__name__`. -/
def memorizeIdentity (env : FuncEnv) : Identity :=
  ⟨abspath env.cwd env.definingFile, basename env.definingFile, env.funcName⟩

/-- Embeds `memoized.setParentFile` of the legacy `src/memorize.py`:
`rel_parent_file = inspect.stack()[-1].filename` — the top-level
script's file, not the file defining the function —
`self.parent_filepath = os.path.abspath(rel_parent_file)`,
`self.parent_filename = filenameFromPath(rel_parent_file)`. -/
def memoizedIdentity (env : FuncEnv) : Identity :=
  ⟨abspath env.cwd env.mainScriptFile, filenameFromPath env.mainScriptFile, env.funcName⟩

/-- Embeds `Memorize.get_cache_filename`:
`filename = _slugify(self.parent_filename.replace('.py', ''))`,
`funcname = _slugify(self.__name__)`,
`folder = os.path.curdir if USE_CURRENT_DIR else
os.path.dirname(self.parent_filepath)`, joined with the literal
`filename + '_' + funcname + '.cache'`. -/
def get_cache_filename (nfkd : List Char → List Char) (useCurrentDir : Bool)
    (ident : Identity) : List Char :=
  let filename := pySlugify nfkd (removeDotPy ident.parent_filename)
  let funcname := pySlugify nfkd ident.name
  let folder := if useCurrentDir then curdir else dirname ident.parent_filepath
  pathJoin folder (filename ++ '_' :: (funcname ++ String.toList ".cache"))

/-- Modelled from the claim's words, for comparison with the source:
a filename derived from the source filename without its (final)
extension, i.e. with everything from the last dot removed. -/
def dropLastExtension (p : List Char) : List Char :=
  if p.any (fun c => c = '.') then
    ((p.reverse.dropWhile (fun c => ¬(c = '.'))).drop 1).reverse
  else p

/-- Modelled from the claim's words: the cache filename as claimed,
built from the source filename without its extension (instead of the
source's removal of every `.py` occurrence), slugified, joined with an
underscore to the slugified function name, suffixed `.cache`, and placed
per the configuration switch. -/
def claimedCacheFilename (nfkd : List Char → List Char) (useCurrentDir : Bool)
    (ident : Identity) : List Char :=
  let filename := pySlugify nfkd (dropLastExtension ident.parent_filename)
  let funcname := pySlugify nfkd ident.name
  let folder := if useCurrentDir then curdir else dirname ident.parent_filepath
  pathJoin folder (filename ++ '_' :: (funcname ++ String.toList ".cache"))

/-- States the amended claim's derivation: the cache filename as a
function of the pair (source filename with every occurrence of `.py`
removed, function name), both slugified, joined by an underscore,
suffixed `.cache`, placed in the current directory or the source file's
directory per the switch. -/
def amendedCacheFilename (nfkd : List Char → List Char) (useCurrentDir : Bool)
    (ident : Identity) : List Char :=
  pathJoin (if useCurrentDir then curdir else dirname ident.parent_filepath)
    (pySlugify nfkd (removeDotPy ident.parent_filename) ++
      '_' :: (pySlugify nfkd ident.name ++ String.toList ".cache"))

end Ident

namespace ReprModel

open Memorize (PyErr)

/-- Wrapper attributes that `__repr__` consults: the wrapped function's
docstring `self.func.__doc__`, which is `None` when the function has no
docstring. -/
structure WrapperDoc where
  funcDoc : Option String

/-- Embeds `Memorize.__repr__` (identically `memoized.__repr__`):
`return self.func.__doc__`. -/
def reprMethod (w : WrapperDoc) : Option String := w.funcDoc

/-- Embeds the Python builtin `repr()` applied to a wrapper: it calls
`__repr__` and raises `TypeError` when the returned value is not a
string (as when `__doc__` is `None`). -/
def builtinRepr (w : WrapperDoc) : Except PyErr String :=
  match reprMethod w with
  | some s => Except.ok s
  | none => Except.error PyErr.typeError

end ReprModel

namespace Sample

open Memorize

/-- Concrete pure function for witnesses: doubles its argument, never
raises. -/
def double : Nat → Except PyErr Nat := fun n => Except.ok (n * 2)

/-- Concrete hashability oracle for witnesses: every tuple hashable. -/
def allHashable : Nat → Bool := fun _ => true

/-- Concrete fresh world for witnesses: no cache file on disk, source
modification time 0, cache not yet loaded. -/
def freshWorld : World Nat Nat := ⟨none, 0, initMem⟩

/-- Identity normalization for witnesses: NFKD on pure-ASCII input. -/
def idChars : List Char → List Char := fun l => l

end Sample

section Theorems

open Memorize (PyErr CacheData World CallResult is_safe_cache check_cache dictLookup
  dictInsert initMem callTrace)

/-- Inserting a binding and looking the key up again finds the inserted
value. -/
theorem dictLookup_dictInsert {α β : Type} [DecidableEq α]
    (l : List (α × β)) (a : α) (b : β) :
    dictLookup (dictInsert l a b) a = some b := by
  induction l with
  | nil => simp [dictInsert, dictLookup]
  | cons hd tl ih =>
    obtain ⟨k, v⟩ := hd
    by_cases hk : k = a
    · subst hk
      simp [dictInsert, dictLookup]
    · simp [dictInsert, dictLookup, hk, ih]

/-- C1: for a pure wrapped function and a hashable argument tuple not yet
cached, the first call through the wrapper invokes the function once and
returns its value, stores the value under the tuple and persists the
updated cache to disk before returning; the subsequent call with the same
tuple returns the stored value with zero invocations of the underlying
function, no write, and an unchanged world. -/
theorem call_memoizes {α β : Type} [DecidableEq α] (f : α → Except PyErr β)
    (hb : α → Bool) (w : World α β) (a : α) (v : β)
    (hh : hb a = true) (hf : f a = Except.ok v)
    (hmiss : dictLookup (check_cache w).1 a = none) :
    (Memorize.call f hb w a).result = Except.ok v ∧
    (Memorize.call f hb w a).invocations = 1 ∧
    (Memorize.call f hb w a).wrote = true ∧
    (Memorize.call f hb w a).world.disk =
      some ⟨w.mtime, dictInsert (check_cache w).1 a v⟩ ∧
    dictLookup (dictInsert (check_cache w).1 a v) a = some v ∧
    (Memorize.call f hb (Memorize.call f hb w a).world a).result = Except.ok v ∧
    (Memorize.call f hb (Memorize.call f hb w a).world a).invocations = 0 ∧
    (Memorize.call f hb (Memorize.call f hb w a).world a).wrote = false ∧
    (Memorize.call f hb (Memorize.call f hb w a).world a).world =
      (Memorize.call f hb w a).world := by
  have h1 : Memorize.call f hb w a =
      ⟨Except.ok v,
        ⟨some ⟨w.mtime, dictInsert (check_cache w).1 a v⟩, w.mtime,
          some (dictInsert (check_cache w).1 a v)⟩,
        1, (check_cache w).2, true⟩ := by
    simp [Memorize.call, hh, hf, hmiss]
  rw [h1]
  simp [Memorize.call, check_cache, hh, dictLookup_dictInsert]

/-- Closed instance of `call_memoizes`: first call on a fresh wrapper
computes and persists, second call hits the cache. -/
theorem call_memoizes_witness :
    (Memorize.call Sample.double Sample.allHashable Sample.freshWorld 3).result =
      Except.ok 6 ∧
    (Memorize.call Sample.double Sample.allHashable
        (Memorize.call Sample.double Sample.allHashable Sample.freshWorld 3).world
        3).invocations = 0 := by
  have h := call_memoizes Sample.double Sample.allHashable Sample.freshWorld 3 6
    rfl rfl rfl
  exact ⟨h.1, h.2.2.2.2.2.2.1⟩

/-- C2: a persisted cache is safe exactly when the source file's current
modification time does not exceed the stored timestamp; a stale cache
file is loaded as the empty mapping (nothing merged), so the next call
with a previously cached tuple invokes the underlying function again. -/
theorem stale_cache_discarded {α β : Type} [DecidableEq α]
    (f : α → Except PyErr β) (hb : α → Bool) (d : CacheData α β)
    (mtime : Int) (a : α) (b v : β)
    (hstale : d.timestamp < mtime) (hcached : dictLookup d.cache a = some b)
    (hh : hb a = true) (hf : f a = Except.ok v) :
    (∀ ts : Int, is_safe_cache mtime ts = true ↔ mtime ≤ ts) ∧
    is_safe_cache mtime d.timestamp = false ∧
    (check_cache (⟨some d, mtime, none⟩ : World α β)).1 = [] ∧
    (Memorize.call f hb ⟨some d, mtime, none⟩ a).invocations = 1 ∧
    (Memorize.call f hb ⟨some d, mtime, none⟩ a).result = Except.ok v := by
  have hsafe : ∀ ts : Int, is_safe_cache mtime ts = true ↔ mtime ≤ ts := by
    intro ts
    by_cases h : mtime > ts
    · simp only [is_safe_cache, if_pos h]
      constructor
      · intro hc
        exact absurd hc (by simp)
      · intro hc
        omega
    · simp only [is_safe_cache, if_neg h]
      constructor
      · intro _
        omega
      · intro _
        trivial
  have hunsafe : is_safe_cache mtime d.timestamp = false := by
    simp [is_safe_cache, hstale]
  have hload : (check_cache (⟨some d, mtime, none⟩ : World α β)).1 = [] := by
    simp [check_cache, hunsafe]
  refine ⟨hsafe, hunsafe, hload, ?_, ?_⟩ <;>
    simp [Memorize.call, check_cache, hunsafe, hh, hf, dictLookup]

/-- Closed instance of `stale_cache_discarded`: a cache written at time 0
for a source file modified at time 1 is discarded and the call
recomputes. -/
theorem stale_cache_discarded_witness :
    (check_cache (⟨some ⟨0, [(3, 99)]⟩, 1, none⟩ : World Nat Nat)).1 = [] ∧
    (Memorize.call Sample.double Sample.allHashable
        ⟨some ⟨0, [(3, 99)]⟩, 1, none⟩ 3).invocations = 1 := by
  have h := stale_cache_discarded Sample.double Sample.allHashable
    (⟨0, [(3, 99)]⟩ : CacheData Nat Nat) 1 3 99 6 (by decide) rfl rfl rfl
  exact ⟨h.2.2.1, h.2.2.2.1⟩

/-- C3: when the argument tuple is unhashable, `Memorize.__call__`'s
`except TypeError` branch invokes the underlying function exactly once,
returns its result, stores nothing beyond the loaded mapping, leaves the
disk untouched, and surfaces no error. -/
theorem unhashable_bypass {α β : Type} [DecidableEq α] (f : α → Except PyErr β)
    (hb : α → Bool) (w : World α β) (a : α) (v : β)
    (hh : hb a = false) (hf : f a = Except.ok v) :
    (Memorize.call f hb w a).result = Except.ok v ∧
    (Memorize.call f hb w a).invocations = 1 ∧
    (Memorize.call f hb w a).world.mem = some (check_cache w).1 ∧
    (Memorize.call f hb w a).world.disk = w.disk ∧
    (Memorize.call f hb w a).wrote = false := by
  simp [Memorize.call, hh, hf]

/-- Closed instance of `unhashable_bypass`: an unhashable tuple is
computed directly, with nothing cached and nothing written. -/
theorem unhashable_bypass_witness :
    (Memorize.call Sample.double (fun _ => false) Sample.freshWorld 3).result =
      Except.ok 6 ∧
    (Memorize.call Sample.double (fun _ => false) Sample.freshWorld 3).wrote =
      false := by
  have h := unhashable_bypass Sample.double (fun _ => false) Sample.freshWorld 3 6
    rfl rfl
  exact ⟨h.1, h.2.2.2.2⟩

/-- C4 (code bug evidence): when the underlying function itself raises
`TypeError` on a cache miss, the `except TypeError` clause of
`Memorize.__call__` — written for unhashable arguments — catches it and
invokes the function a second time, instead of letting the single
invocation's exception propagate unchanged; nothing is cached or
written, and the (second) `TypeError` is what reaches the caller. -/
theorem call_reinvokes_on_typeError :
    (Memorize.call (fun _ : Nat => (Except.error PyErr.typeError : Except PyErr Nat))
        Sample.allHashable Sample.freshWorld 0).invocations = 2 ∧
    (Memorize.call (fun _ : Nat => (Except.error PyErr.typeError : Except PyErr Nat))
        Sample.allHashable Sample.freshWorld 0).result =
      Except.error PyErr.typeError ∧
    (Memorize.call (fun _ : Nat => (Except.error PyErr.typeError : Except PyErr Nat))
        Sample.allHashable Sample.freshWorld 0).wrote = false ∧
    (Memorize.call (fun _ : Nat => (Except.error (PyErr.other 7) : Except PyErr Nat))
        Sample.allHashable Sample.freshWorld 0).invocations = 1 ∧
    (Memorize.call (fun _ : Nat => (Except.error (PyErr.other 7) : Except PyErr Nat))
        Sample.allHashable Sample.freshWorld 0).result =
      Except.error (PyErr.other 7) := by
  refine ⟨rfl, rfl, rfl, rfl, rfl⟩


/-- Every branch of `Memorize.call` reports exactly the reads performed
by `check_cache`. -/
theorem call_reads_eq {α β : Type} [DecidableEq α] (f : α → Except PyErr β)
    (hb : α → Bool) (w : World α β) (a : α) :
    (Memorize.call f hb w a).reads = (check_cache w).2 := by
  unfold Memorize.call
  by_cases hh : hb a = true
  · simp only [hh, if_pos]
    cases hl : dictLookup (check_cache w).1 a with
    | some v => rfl
    | none =>
      cases hfa : f a with
      | ok v => rfl
      | error e => cases e <;> rfl
  · simp only [hh]
    simp

/-- Every branch of `Memorize.call` leaves the in-memory cache loaded. -/
theorem call_mem_isSome {α β : Type} [DecidableEq α] (f : α → Except PyErr β)
    (hb : α → Bool) (w : World α β) (a : α) :
    ((Memorize.call f hb w a).world.mem).isSome = true := by
  unfold Memorize.call
  by_cases hh : hb a = true
  · simp only [hh, if_pos]
    cases hl : dictLookup (check_cache w).1 a with
    | some v => rfl
    | none =>
      cases hfa : f a with
      | ok v => rfl
      | error e => cases e <;> rfl
  · simp only [hh]
    simp

/-- Once the in-memory cache is loaded, `check_cache` performs no read
and returns it unchanged. -/
theorem check_cache_of_some {α β : Type} (w : World α β) (c : List (α × β))
    (h : w.mem = some c) : check_cache w = (c, 0) := by
  simp [check_cache, h]

/-- `check_cache` performs at most one cache-file read. -/
theorem check_cache_reads_le_one {α β : Type} (w : World α β) :
    (check_cache w).2 ≤ 1 := by
  unfold check_cache
  cases w.mem with
  | some c => simp
  | none =>
    cases w.disk with
    | some d =>
      by_cases hs : is_safe_cache w.mtime d.timestamp = true <;> simp [hs]
    | none => simp

/-- Once the cache is loaded, no call in any subsequent call sequence
reads the cache file again. -/
theorem callTrace_reads_zero {α β : Type} [DecidableEq α] (f : α → Except PyErr β)
    (hb : α → Bool) :
    ∀ (calls : List α) (w : World α β), (w.mem).isSome = true →
      (callTrace f hb w calls).2 = 0 := by
  intro calls
  induction calls with
  | nil =>
    intro w _
    simp [callTrace]
  | cons a rest ih =>
    intro w hw
    obtain ⟨c, hc⟩ := Option.isSome_iff_exists.mp hw
    have hr : (Memorize.call f hb w a).reads = 0 := by
      rw [call_reads_eq, check_cache_of_some w c hc]
    have ht : (callTrace f hb (Memorize.call f hb w a).world rest).2 = 0 :=
      ih _ (call_mem_isSome f hb w a)
    simp [callTrace, hr, ht]

/-- C5 counterexample: the legacy `memoized.__init__` reads an existing
cache file eagerly, during construction, before any invocation — the
read count of construction itself is already nonzero. -/
theorem memoized_reads_at_construction :
    (Memoized.init (some (⟨0, [(1, 2)]⟩ : CacheData Nat Nat)) 0).2 ≠ 0 := by
  decide

/-- C5 (amended): for the `Memorize` wrapper, construction performs no
read (`self.cache = None`), a whole lifetime of calls started from the
fresh state reads the cache file at most once, and from any state whose
cache is already loaded — as holds from the first call onwards — no
further call reads the file. -/
theorem lazy_single_read {α β : Type} [DecidableEq α] (f : α → Except PyErr β)
    (hb : α → Bool) (disk : Option (CacheData α β)) (mtime : Int)
    (calls : List α) :
    (initMem : Option (List (α × β))) = none ∧
    (callTrace f hb ⟨disk, mtime, initMem⟩ calls).2 ≤ 1 ∧
    (∀ w : World α β, (w.mem).isSome = true →
      (callTrace f hb w calls).2 = 0) := by
  refine ⟨rfl, ?_, fun w hw => callTrace_reads_zero f hb calls w hw⟩
  cases calls with
  | nil => simp [callTrace]
  | cons a rest =>
    have h1 : (Memorize.call f hb ⟨disk, mtime, initMem⟩ a).reads ≤ 1 := by
      rw [call_reads_eq]
      exact check_cache_reads_le_one _
    have h2 : (callTrace f hb (Memorize.call f hb ⟨disk, mtime, initMem⟩ a).world
        rest).2 = 0 :=
      callTrace_reads_zero f hb rest _ (call_mem_isSome f hb _ a)
    simp only [callTrace, h2]
    omega

/-- Closed instance of `lazy_single_read`: three calls on a fresh wrapper
with an existing cache file read it exactly at most once, and a loaded
wrapper reads nothing. -/
theorem lazy_single_read_witness :
    (callTrace Sample.double Sample.allHashable
        ⟨some ⟨0, [(1, 2)]⟩, 0, initMem⟩ [1, 2, 1]).2 ≤ 1 ∧
    (callTrace Sample.double Sample.allHashable
        (⟨none, 0, some []⟩ : World Nat Nat) [5]).2 = 0 := by
  have h := lazy_single_read Sample.double Sample.allHashable
    (some ⟨0, [(1, 2)]⟩) 0 [1, 2, 1]
  have h2 := lazy_single_read Sample.double Sample.allHashable none 0 [5]
  exact ⟨h.2.1, h2.2.2 ⟨none, 0, some []⟩ rfl⟩

/-- C9: in the legacy `memoized.__call__`, the guard
`isinstance(args, collections.Hashable)` holds for every argument tuple
(a tuple's class is hashable regardless of its elements), so the direct
bypass branch is never taken, and a call whose tuple cannot be hashed
raises `TypeError` from the cache lookup to the caller — the underlying
function is not invoked at all, nothing is stored, nothing written. -/
theorem memoized_guard_unreachable {α β : Type} [DecidableEq α]
    (f : α → Except PyErr β) (hb : α → Bool) (c : List (α × β)) (a : α)
    (hn : hb a = false) :
    Memoized.tupleIsInstanceHashable = true ∧
    Memoized.call f hb c a =
      ⟨Except.error PyErr.typeError, c, 0, false⟩ := by
  refine ⟨rfl, ?_⟩
  simp [Memoized.call, Memoized.tupleIsInstanceHashable, hn]

/-- Closed instance of `memoized_guard_unreachable`: an unhashable tuple
surfaces `TypeError` through the legacy wrapper without invoking the
function. -/
theorem memoized_guard_unreachable_witness :
    Memoized.tupleIsInstanceHashable = true ∧
    Memoized.call Sample.double (fun _ => false) ([] : List (Nat × Nat)) 3 =
      ⟨Except.error PyErr.typeError, [], 0, false⟩ :=
  memoized_guard_unreachable Sample.double (fun _ => false) [] 3 rfl

/-- C10: `__repr__` returns exactly the wrapped function's docstring, so
`repr()` on a wrapper yields that string when the docstring exists, and
fails with `TypeError` (the `__repr__` returned a non-string `None`)
when the wrapped function has no docstring. -/
theorem repr_returns_docstring :
    (∀ s : String, ReprModel.builtinRepr ⟨some s⟩ = Except.ok s) ∧
    ReprModel.builtinRepr ⟨none⟩ = Except.error PyErr.typeError :=
  ⟨fun _ => rfl, rfl⟩


/-- C7 counterexample: the source derives the first component with
`.replace('.py', '')`, which removes every occurrence of `.py`, not just
the final extension; for the legal filename `a.py.py` the code produces
`./a_f.cache` while the claimed derivation from the filename without its
extension (`a.py`, slugified `apy`) produces `./apy_f.cache`. -/
theorem cache_filename_not_extension_based :
    Ident.get_cache_filename Sample.idChars true
        ⟨String.toList "/home/a.py.py", String.toList "a.py.py",
          String.toList "f"⟩ ≠
      Ident.claimedCacheFilename Sample.idChars true
        ⟨String.toList "/home/a.py.py", String.toList "a.py.py",
          String.toList "f"⟩ := by
  decide

/-- C7 (amended): the cache file path is the deterministic function of
the recorded identity given by slugifying the source filename with every
occurrence of `.py` removed and the function name, joining them with an
underscore, appending the fixed `.cache` suffix, and placing the file in
the current working directory when the global switch is set, otherwise
in the directory containing the source file. -/
theorem cache_filename_structure (nfkd : List Char → List Char)
    (useCurrentDir : Bool) (ident : Ident.Identity) :
    Ident.get_cache_filename nfkd useCurrentDir ident =
      Ident.amendedCacheFilename nfkd useCurrentDir ident :=
  rfl

/-- C8 counterexample: the legacy `memoized.setParentFile` records
`inspect.stack()[-1].filename` — the top-level script — so when a
function defined in `lib.py` is wrapped while `main.py` runs, the
recorded path is `/home/main.py`, not the defining file's absolute path
`/home/lib.py`. -/
theorem memoized_records_main_script :
    (Ident.memoizedIdentity
        ⟨String.toList "lib.py", String.toList "main.py", String.toList "f",
          String.toList "/home"⟩).parent_filepath ≠
      PyPath.abspath (String.toList "/home") (String.toList "lib.py") := by
  decide

/-- C8 (amended): the `Memorize` wrapper records at construction the
absolute path of the defining source file and the declared function
name; its staleness check reads the modification time of exactly that
recorded path and its cache filename is built from exactly that file's
basename and that name; the legacy `memoized` class instead records the
absolute path of the outermost stack frame's file (the running script),
which names the defining file only when the function is defined in the
main script. -/
theorem memorize_identity_binding (env : Ident.FuncEnv)
    (nfkd : List Char → List Char) (u : Bool) (mtimeOf : List Char → Int) :
    (Ident.memorizeIdentity env).parent_filepath =
      PyPath.abspath env.cwd env.definingFile ∧
    (Ident.memorizeIdentity env).name = env.funcName ∧
    mtimeOf (Ident.memorizeIdentity env).parent_filepath =
      mtimeOf (PyPath.abspath env.cwd env.definingFile) ∧
    Ident.get_cache_filename nfkd u (Ident.memorizeIdentity env) =
      PyPath.pathJoin
        (if u then PyPath.curdir
          else PyPath.dirname (PyPath.abspath env.cwd env.definingFile))
        (Slug.pySlugify nfkd (PyPath.removeDotPy (PyPath.basename env.definingFile)) ++
          '_' :: (Slug.pySlugify nfkd env.funcName ++ String.toList ".cache")) ∧
    (Ident.memoizedIdentity env).parent_filepath =
      PyPath.abspath env.cwd env.mainScriptFile :=
  ⟨rfl, rfl, rfl, rfl, rfl⟩


/-- Every character produced by the run-collapsing pass is either the
replacement hyphen or an input character that is not in `[-\s]`. -/
theorem mem_collapseAux {c : Char} :
    ∀ (l : List Char) (b : Bool), c ∈ Slug.collapseAux b l →
      c = '-' ∨ (c ∈ l ∧ Slug.isDashOrSpace c = false) := by
  intro l
  induction l with
  | nil =>
    intro b h
    simp [Slug.collapseAux] at h
  | cons x rest ih =>
    intro b h
    by_cases hx : Slug.isDashOrSpace x = true
    · cases b with
      | true =>
        simp only [Slug.collapseAux, hx, if_true] at h
        rcases ih true h with h1 | ⟨h2, h3⟩
        · exact Or.inl h1
        · exact Or.inr ⟨List.mem_cons_of_mem x h2, h3⟩
      | false =>
        simp only [Slug.collapseAux, hx, if_true, Bool.false_eq_true, if_false] at h
        rcases List.mem_cons.mp h with h1 | h1
        · exact Or.inl h1
        · rcases ih true h1 with h2 | ⟨h2, h3⟩
          · exact Or.inl h2
          · exact Or.inr ⟨List.mem_cons_of_mem x h2, h3⟩
    · have hx' : Slug.isDashOrSpace x = false := by
        revert hx
        cases Slug.isDashOrSpace x <;> simp
      simp only [Slug.collapseAux, hx', Bool.false_eq_true, if_false] at h
      rcases List.mem_cons.mp h with h1 | h1
      · subst h1
        exact Or.inr ⟨List.mem_cons_self _ _, hx'⟩
      · rcases ih false h1 with h2 | ⟨h2, h3⟩
        · exact Or.inl h2
        · exact Or.inr ⟨List.mem_cons_of_mem x h2, h3⟩

/-- After the replacement hyphen of a run has been emitted, the rest of
the collapsed output never starts with another hyphen. -/
theorem collapseAux_true_head (l : List Char) :
    Slug.startsWithDash (Slug.collapseAux true l) = false := by
  induction l with
  | nil => rfl
  | cons x rest ih =>
    by_cases hx : Slug.isDashOrSpace x = true
    · simp only [Slug.collapseAux, hx, if_true]
      exact ih
    · have hx' : Slug.isDashOrSpace x = false := by
        revert hx
        cases Slug.isDashOrSpace x <;> simp
      have hxd : ¬(x = '-') := by
        intro he
        subst he
        simp [Slug.isDashOrSpace] at hx'
      simp only [Slug.collapseAux, hx', Bool.false_eq_true, if_false]
      simp [Slug.startsWithDash, hxd]

/-- Prepending a hyphen to a string that does not start with one creates
no adjacent pair. -/
theorem noAdjacentHyphens_cons_dash (xs : List Char)
    (h : Slug.startsWithDash xs = false) :
    Slug.noAdjacentHyphens ('-' :: xs) = Slug.noAdjacentHyphens xs := by
  cases xs with
  | nil => rfl
  | cons a rest =>
    have ha : ¬(a = '-') := by
      simp [Slug.startsWithDash] at h
      exact h
    simp [Slug.noAdjacentHyphens, ha]

/-- Prepending a non-hyphen character creates no adjacent pair. -/
theorem noAdjacentHyphens_cons_ne (a : Char) (xs : List Char) (h : ¬(a = '-')) :
    Slug.noAdjacentHyphens (a :: xs) = Slug.noAdjacentHyphens xs := by
  cases xs with
  | nil => simp [Slug.noAdjacentHyphens]
  | cons b rest => simp [Slug.noAdjacentHyphens, h]

/-- The run-collapsing pass never emits two adjacent hyphens. -/
theorem collapseAux_noAdjacent (l : List Char) :
    ∀ b : Bool, Slug.noAdjacentHyphens (Slug.collapseAux b l) = true := by
  induction l with
  | nil =>
    intro b
    rfl
  | cons x rest ih =>
    intro b
    by_cases hx : Slug.isDashOrSpace x = true
    · cases b with
      | true =>
        simp only [Slug.collapseAux, hx, if_true]
        exact ih true
      | false =>
        simp only [Slug.collapseAux, hx, if_true, Bool.false_eq_true, if_false]
        rw [noAdjacentHyphens_cons_dash _ (collapseAux_true_head rest)]
        exact ih true
    · have hx' : Slug.isDashOrSpace x = false := by
        revert hx
        cases Slug.isDashOrSpace x <;> simp
      have hxd : ¬(x = '-') := by
        intro he
        subst he
        simp [Slug.isDashOrSpace] at hx'
      simp only [Slug.collapseAux, hx', Bool.false_eq_true, if_false]
      rw [noAdjacentHyphens_cons_ne x _ hxd]
      exact ih false

/-- A character that is not an uppercase letter is fixed by `lower()`. -/
theorem toLower_eq_self (c : Char) (h : ¬(65 ≤ c.toNat ∧ c.toNat ≤ 90)) :
    Char.toLower c = c := by
  unfold Char.toLower
  rw [if_neg]
  intro hc
  exact h ⟨hc.1, hc.2⟩

/-- An uppercase letter is shifted by 32 by `lower()`. -/
theorem toLower_eq_ofNat (c : Char) (h1 : 65 ≤ c.toNat) (h2 : c.toNat ≤ 90) :
    Char.toLower c = Char.ofNat (c.toNat + 32) := by
  unfold Char.toLower
  rw [if_pos]
  exact ⟨h1, h2⟩

/-- Lower-casing an uppercase code point lands on a lowercase letter,
hence on a slug character. -/
theorem isSlugChar_ofNat_upper (n : Nat) (h1 : 65 ≤ n) (h2 : n ≤ 90) :
    Slug.isSlugChar (Char.ofNat (n + 32)) = true := by
  interval_cases n <;> decide

/-- Lower-casing a `\w` character yields a slug character. -/
theorem toLower_isSlugChar_of_word (c : Char) (h : Slug.isWordChar c = true) :
    Slug.isSlugChar (Char.toLower c) = true := by
  rw [Slug.isWordChar, Bool.or_eq_true, Bool.or_eq_true, Bool.or_eq_true] at h
  rcases h with ((hl | hu) | hdg) | hus
  · have hl' := of_decide_eq_true hl
    rw [toLower_eq_self c (by omega)]
    rw [Slug.isSlugChar, decide_eq_true hl']
    simp
  · have hu' := of_decide_eq_true hu
    rw [toLower_eq_ofNat c hu'.1 hu'.2]
    exact isSlugChar_ofNat_upper c.toNat hu'.1 hu'.2
  · have hd' := of_decide_eq_true hdg
    rw [toLower_eq_self c (by omega)]
    rw [Slug.isSlugChar, decide_eq_true hd']
    simp
  · have hu' := of_decide_eq_true hus
    subst hu'
    decide

/-- Lower-casing fixes whitespace. -/
theorem toLower_pySpace (c : Char) (h : Slug.isPySpace c = true) :
    Slug.isPySpace (Char.toLower c) = true := by
  have hn : ¬(65 ≤ c.toNat ∧ c.toNat ≤ 90) := by
    have h' := h
    rw [Slug.isPySpace, Bool.or_eq_true, Bool.or_eq_true] at h'
    rcases h' with (h1 | h1) | h1
    · have := of_decide_eq_true h1
      omega
    · have := of_decide_eq_true h1
      omega
    · have := of_decide_eq_true h1
      omega
  rw [toLower_eq_self c hn]
  exact h

/-- Stripping returns a subcollection of the input characters. -/
theorem mem_of_mem_pyStrip {c : Char} {l : List Char}
    (h : c ∈ Slug.pyStrip l) : c ∈ l := by
  unfold Slug.pyStrip at h
  rw [List.mem_reverse] at h
  have h2 := (List.dropWhile_sublist _).subset h
  rw [List.mem_reverse] at h2
  exact (List.dropWhile_sublist _).subset h2

/-- Every character of a slug is a lowercase letter, a digit, an
underscore, or a hyphen. -/
theorem pySlugify_chars (nfkd : List Char → List Char) (s : List Char) :
    ∀ c ∈ Slug.pySlugify nfkd s, Slug.isSlugChar c = true := by
  intro c hc
  simp only [Slug.pySlugify, Slug.collapseRuns] at hc
  rcases mem_collapseAux _ _ hc with h1 | ⟨h2, h3⟩
  · subst h1
    decide
  · rw [List.mem_map] at h2
    obtain ⟨c0, hc0, rfl⟩ := h2
    have hc0' := mem_of_mem_pyStrip hc0
    rw [List.mem_filter] at hc0'
    have hclass := hc0'.2
    rw [Bool.or_eq_true, Bool.or_eq_true] at hclass
    rcases hclass with (hw | hs) | hd
    · exact toLower_isSlugChar_of_word c0 hw
    · exfalso
      have hsp := toLower_pySpace c0 hs
      rw [Slug.isDashOrSpace, hsp] at h3
      simp at h3
    · exfalso
      have hd' : c0 = '-' := of_decide_eq_true hd
      subst hd'
      rw [show Char.toLower '-' = '-' from by decide] at h3
      simp [Slug.isDashOrSpace] at h3

/-- C6: the slug generator is a total Lean function of its input (hence
pure and deterministic: no state appears in its type), and for every
input string its output consists solely of lowercase alphanumerics,
underscores and hyphens, with no two hyphens adjacent — the result of
normalizing, dropping non-ASCII, removing characters outside
`[\w\s-]`, trimming, lower-casing and collapsing `[-\s]` runs into
single hyphens. -/
theorem slugify_shape (nfkd : List Char → List Char) (s : List Char) :
    (∀ c ∈ Slug.pySlugify nfkd s, Slug.isSlugChar c = true) ∧
    Slug.noAdjacentHyphens (Slug.pySlugify nfkd s) = true := by
  refine ⟨pySlugify_chars nfkd s, ?_⟩
  simp only [Slug.pySlugify, Slug.collapseRuns]
  exact collapseAux_noAdjacent _ false

/-- Closed instance of `slugify_shape` on a representative mixed input. -/
theorem slugify_shape_witness :
    (Slug.pySlugify Sample.idChars (String.toList "  Hello -- World_2.PY ")).all
        Slug.isSlugChar = true ∧
    Slug.noAdjacentHyphens
      (Slug.pySlugify Sample.idChars (String.toList "  Hello -- World_2.PY ")) =
      true := by
  constructor
  · exact List.all_eq_true.mpr
      (slugify_shape Sample.idChars (String.toList "  Hello -- World_2.PY ")).1
  · exact (slugify_shape Sample.idChars (String.toList "  Hello -- World_2.PY ")).2

end Theorems

